import Mathlib

/-!
Verification of the `trade_license_cbt` PDF-parsing pipeline.

Shallow embedding of the data model and the pure parsing / merging
algorithms of `src/trade_license_cbt/models/question_model.py` and
`src/trade_license_cbt/services/pdf_parser.py`.

Conventions of the embedding:
* Python strings are Lean `String`s (sequences of Unicode code points,
  matching Python's `str` semantics for `len`, slicing and comparison).
* Python whitespace handling (`str.strip`, the regex class `\s`) is
  modelled over the ASCII whitespace characters, which are the only
  whitespace characters occurring in the texts at issue.
* Falling Python code (`raise`) is modelled with `Except String`;
  returning normally is `Except.ok`.
* The external libraries PyMuPDF (`fitz`) and the OpenAI client are
  modelled as oracle parameters: a PDF document is its list of extracted
  page texts, `fitz.open` is a function from the raw bytes to
  `Except String PdfDoc` (an `Except.error` models the exception that
  PyMuPDF raises on documents it cannot open), and the LLM extraction
  helpers are functions from (section text, subject hint) to the list of
  records that they produce (the source catches every error inside those
  helpers and converts it to an empty list, so they never raise).
-/

/-- Python whitespace test restricted to the ASCII whitespace characters
(space, tab, newline, carriage return, vertical tab, form feed); this is
the character class `\s` of the source's regexes on the inputs at issue. -/
def isPyWs (c : Char) : Bool :=
  c == ' ' || c == '\t' || c == '\n' || c == '\r' || c == '\x0b' || c == '\x0c'

/-- Python `str.strip()` on a list of characters: drop whitespace from both ends. -/
def pyStripList (cs : List Char) : List Char :=
  ((cs.dropWhile isPyWs).reverse.dropWhile isPyWs).reverse

/-- Python `str.strip()`. -/
def pyStrip (s : String) : String :=
  String.mk (pyStripList s.data)

/-- Embedding of `_normalize_subject` (pdf_parser.py line 519): remove whitespace and
the punctuation characters of the class `[\s·‧\-_]`, then lowercase. -/
def normalizeSubject (s : String) : String :=
  String.mk (((s.data.filter
    (fun c => !(isPyWs c || c == '·' || c == '‧' || c == '-' || c == '_'))).map
      Char.toLower))

/-- The `Question` pydantic model (question_model.py). -/
structure Question where
  id : Int
  subject : String
  context : Option String
  question_text : String
  options : List String
  answer : String
  explanation : String
  page_number : Int
deriving DecidableEq, Repr

/-- Construction of a `Question` through its pydantic validators:
`subject` and `question_text` have `min_length=1`, `validate_options_length`
requires at least two options, and `validate_answer_in_options` requires a
non-empty answer to be a member of the options.  A failing validator raises
`ValidationError`, modelled as `Except.error`. -/
def mkQuestion (id : Int) (subject : String) (context : Option String)
    (question_text : String) (options : List String) (answer : String)
    (explanation : String) (page_number : Int) : Except String Question :=
  if subject.length < 1 then Except.error "subject: min_length"
  else if question_text.length < 1 then Except.error "question_text: min_length"
  else if options.length < 2 then
    Except.error "보기(options)는 최소 2개 이상의 항목이 필요합니다."
  else if answer ≠ "" ∧ answer ∉ options then
    Except.error "정답이 보기 리스트에 존재하지 않습니다."
  else Except.ok ⟨id, subject, context, question_text, options, answer,
    explanation, page_number⟩

/-- An answer record: the dict-shaped intermediate entity
`{id, subject, answer, explanation}` produced by the answer-key parsers.
A missing `id` key is modelled as `none`; `subject`, `answer` and
`explanation` default to `""` when absent, matching the source's
`a.get("subject", "")` / `info.get("answer", "")` / `info.get("explanation", "")`. -/
structure AnswerRecord where
  id : Option Int
  subject : String
  answer : String
  explanation : String
deriving DecidableEq, Repr

/-- The `_CIRCLED_NUMBERS` table (pdf_parser.py lines 71-74). -/
def circledPairs : List (String × String) :=
  [("1", "①"), ("2", "②"), ("3", "③"), ("4", "④"), ("5", "⑤"),
   ("6", "⑥"), ("7", "⑦"), ("8", "⑧"), ("9", "⑨"), ("10", "⑩")]

/-- Python `re.search(r"(\d+)", s)`: the first maximal run of decimal digits of
`s`, if any. -/
def firstDigitRun (s : String) : Option String :=
  match s.data.dropWhile (fun c => !c.isDigit) with
  | [] => none
  | c :: cs => some (String.mk ((c :: cs).takeWhile Char.isDigit))

/-- Python `s.startswith(p)`, i.e. `s` begins with `p`; modelled over
the character lists so that it evaluates by kernel reduction. -/
def pyStartswith (p s : String) : Bool :=
  p.data.isPrefixOf s.data

/-- Step 3 of `_match_answer_to_option` (pdf_parser.py lines 615-624):
convert the first digit run of the (already stripped) answer text to a
circled glyph and retry the exact and prefix matches with it. -/
def glyphStep (a : String) (options : List String) : String :=
  match firstDigitRun a with
  | none => ""
  | some num =>
    match circledPairs.lookup num with
    | none => ""
    | some sym =>
      if sym ∈ options then sym
      else
        match options.find? (fun opt => pyStartswith sym (pyStrip opt)) with
        | some opt => opt
        | none => ""

/-- Embedding of `_match_answer_to_option` (pdf_parser.py lines 600-627): empty input
stays empty; otherwise the stripped answer is matched exactly, then as a
prefix of a stripped option, then through the digit-to-circled-glyph step;
on total failure the result is `""`. -/
def matchAnswerToOption (answerText : String) (options : List String) : String :=
  if answerText = "" then ""
  else if pyStrip answerText ∈ options then pyStrip answerText
  else
    match options.find? (fun opt => pyStartswith (pyStrip answerText) (pyStrip opt)) with
    | some opt => opt
    | none => glyphStep (pyStrip answerText) options

/-- One of the three matching rules of `_match_answer_to_option` applies to
the (stripped) answer token `a`. -/
def anyRuleMatches (a : String) (options : List String) : Prop :=
  a ∈ options ∨
  (∃ opt ∈ options, pyStartswith a (pyStrip opt)) ∨
  (∃ num sym, firstDigitRun a = some num ∧ circledPairs.lookup num = some sym ∧
    (sym ∈ options ∨ ∃ opt ∈ options, pyStartswith sym (pyStrip opt)))

/-- A Python `dict` assignment `d[k] = v`: any earlier binding of `k` is
superseded.  (Python's insertion order is not observed by the merge code,
which only calls `.get`, so the representation keeps a single binding per
key.) -/
def pySet {κ β : Type} [DecidableEq κ] (d : List (κ × β)) (k : κ) (v : β) :
    List (κ × β) :=
  d.filter (fun p => decide (p.1 ≠ k)) ++ [(k, v)]

/-- A Python `dict.get(k)`: `None` when the key is absent. -/
def pyGet {κ β : Type} [DecidableEq κ] (d : List (κ × β)) (k : κ) : Option β :=
  (d.find? (fun p => decide (p.1 = k))).map Prod.snd

/-- The Python expression `a or b` applied to the two dict lookups in
`merge_answers`: every stored record is a non-empty dict (it has an `id`
key), hence truthy, so `or` is first-`some`. -/
def pyOrOpt (a b : Option AnswerRecord) : Option AnswerRecord :=
  match a with
  | some x => some x
  | none => b

/-- The loop body of the map-building pass of `merge_answers`
(pdf_parser.py lines 480-487): records without an `id` key are skipped;
records whose normalized subject is non-empty are entered into the
composite-key map; every record is entered into the id-only map. -/
def mergeStep (maps : List ((String × Int) × AnswerRecord) × List (Int × AnswerRecord))
    (a : AnswerRecord) :
    List ((String × Int) × AnswerRecord) × List (Int × AnswerRecord) :=
  match a.id with
  | none => maps
  | some aid =>
    let subj := normalizeSubject a.subject
    (if subj ≠ "" then pySet maps.1 (subj, aid) a else maps.1,
     pySet maps.2 aid a)

/-- The two lookup maps of `merge_answers`: composite
`(normalized subject, id)` map and id-only fallback map. -/
def buildMaps (answers : List AnswerRecord) :
    List ((String × Int) × AnswerRecord) × List (Int × AnswerRecord) :=
  answers.foldl mergeStep ([], [])

/-- The per-question lookup of `merge_answers` (pdf_parser.py line 494):
composite key first, id-only fallback second.  (The source builds the two
maps once before its loop; both maps are pure functions of `answers`, so
inlining the construction is observationally identical.) -/
def lookupInfo (answers : List AnswerRecord) (q : Question) : Option AnswerRecord :=
  pyOrOpt (pyGet (buildMaps answers).1 (normalizeSubject q.subject, q.id))
    (pyGet (buildMaps answers).2 q.id)

/-- The copy `q.model_copy(update=...)` with new answer and explanation applied to a
matched record (pdf_parser.py lines 497-505): the answer is normalized
against the question's options and the explanation falls back to the
question's own one when the record's is empty.  pydantic's `model_copy`
does not re-run validators, so this step cannot fail (the `except` branch
of the source is unreachable). -/
def applyRecord (a : AnswerRecord) (q : Question) : Question :=
  { q with answer := matchAnswerToOption a.answer q.options,
           explanation := if a.explanation ≠ "" then a.explanation else q.explanation }

/-- Embedding of `merge_answers` (pdf_parser.py lines 472-516). -/
def mergeAnswers (questions : List Question) (answers : List AnswerRecord) :
    List Question :=
  questions.map (fun q =>
    match lookupInfo answers q with
    | some a => applyRecord a q
    | none => q)

/-- Does the spaced pattern of `name` — its characters joined by the regex
`\s*` (pdf_parser.py line 219) — match at the head of `cs`?  Greedy
whitespace skipping is equivalent to the regex because every name
character is non-whitespace. -/
def matchSpacedAux : List Char → List Char → Bool
  | [], _ => true
  | _ :: _, [] => false
  | c :: rest, d :: ds => c == d && matchSpacedAux rest (ds.dropWhile isPyWs)

/-- Python `re.search` of the spaced pattern: try every start position. -/
def searchSpacedGo (name : List Char) : List Char → Bool
  | [] => matchSpacedAux name []
  | d :: ds => matchSpacedAux name (d :: ds) || searchSpacedGo name ds

def searchSpaced (name text : String) : Bool :=
  searchSpacedGo name.data text.data

/-- Python `text.split` on newlines. -/
def splitLinesGo : List Char → List Char → List (List Char)
  | [], cur => [cur.reverse]
  | c :: cs, cur =>
    if c == '\n' then cur.reverse :: splitLinesGo cs []
    else splitLinesGo cs (c :: cur)

def pySplitLines (text : String) : List String :=
  (splitLinesGo text.data []).map String.mk

/-- The closed set of subject names of the deterministic answer-table
parser (pdf_parser.py line 215). -/
def subjectNames : List String :=
  ["무역규범", "무역결제", "무역계약", "무역영어"]

/-- The subjects detected as headers (pdf_parser.py lines 216-221). -/
def detFound (text : String) : List String :=
  subjectNames.filter (fun n => searchSpaced n text)

/-- Index of the last line whose stripped text is the column label
`문제번호` or `정답` (pdf_parser.py lines 233-239); 0 when none occurs. -/
def lastLabelIdx (lines : List String) : Nat :=
  lines.enum.foldl
    (fun acc p =>
      if pyStrip p.2 = "문제번호" ∨ pyStrip p.2 = "정답" then p.1 else acc) 0

/-- The circled glyphs accepted as answer tokens (pdf_parser.py line 229). -/
def circledTen : List String :=
  ["①", "②", "③", "④", "⑤", "⑥", "⑦", "⑧", "⑨", "⑩"]

/-- Python's `str.isdigit` restricted to the characters relevant here:
ASCII digits and the circled digits ①-⑨ (Unicode `Numeric_Type=Digit`);
`⑩` is not an `isdigit` character but is caught by the circled set anyway. -/
def pyIsdigitChar (c : Char) : Bool :=
  c.isDigit || ['①', '②', '③', '④', '⑤', '⑥', '⑦', '⑧', '⑨'].contains c

def pyIsdigit (s : String) : Bool :=
  !s.data.isEmpty && s.data.all pyIsdigitChar

/-- Token collection (pdf_parser.py lines 244-251): from the data region,
keep every stripped line that is purely digits or a circled glyph. -/
def detTokens (text : String) : List String :=
  (((pySplitLines text).drop
      (if lastLabelIdx (pySplitLines text) > 0
       then lastLabelIdx (pySplitLines text) + 1 else 0)).map pyStrip).filter
    (fun s => !(s == "") && (pyIsdigit s || circledTen.contains s))

/-- Python `int(token)`: defined exactly on non-empty ASCII-digit strings; a
circled glyph raises `ValueError`, modelled as `none`. -/
def toIntDigits (s : String) : Option Int :=
  if !s.data.isEmpty && s.data.all Char.isDigit then
    some (Int.ofNat (s.data.foldl (fun n c => n * 10 + (c.toNat - 48)) 0))
  else none

/-- One 10-token subject block — 5 question numbers then 5 answers —
faithful to the inner `for j in range(group_size)` loop, including the
skip on `int()` failure and the empty answer for a short answer slice. -/
def buildBlockRecords (subj : String) (numbers ansTokens : List String) :
    List AnswerRecord :=
  (List.range 5).filterMap (fun j =>
    match numbers.get? j with
    | none => none
    | some nstr =>
      match toIntDigits nstr with
      | none => none
      | some n => some ⟨some n, subj, (ansTokens.get? j).getD "", ""⟩)

/-- One row block: each detected subject in order contributes one
10-token block (pdf_parser.py lines 265-281). -/
def parseRowBlock : List String → List String → List AnswerRecord
  | [], _ => []
  | s :: rest, toks =>
    buildBlockRecords s (toks.take 5) ((toks.drop 5).take 5) ++
      parseRowBlock rest (toks.drop 10)

/-- The `while pos + row_block <= len(tokens)` loop (pdf_parser.py lines
264-282), fuelled by the token count: each iteration consumes
`rowBlock ≥ 1` tokens, so the fuel never runs out while the loop condition
holds.  Returns the parsed records and the remaining tokens. -/
def mainLoopFuel : Nat → List String → Nat → List String →
    List AnswerRecord × List String
  | 0, _, _, toks => ([], toks)
  | fuel + 1, subs, rowBlock, toks =>
    if 0 < rowBlock ∧ rowBlock ≤ toks.length then
      (parseRowBlock subs (toks.take rowBlock) ++
        (mainLoopFuel fuel subs rowBlock (toks.drop rowBlock)).1,
       (mainLoopFuel fuel subs rowBlock (toks.drop rowBlock)).2)
    else ([], toks)

def mainLoop (subs : List String) (rowBlock : Nat) (toks : List String) :
    List AnswerRecord × List String :=
  mainLoopFuel toks.length subs rowBlock toks

/-- The leftover-token loop (pdf_parser.py lines 284-305): one 10-token
block per subject in order, while at least 10 tokens remain. -/
def remLoop : List String → List String → List AnswerRecord
  | [], _ => []
  | s :: rest, toks =>
    if 10 ≤ toks.length then
      buildBlockRecords s (toks.take 5) ((toks.drop 5).take 5) ++
        remLoop rest (toks.drop 10)
    else []

/-- All records collected by the two loops, with
`row_block = block_size * num_subjects = 10 * len(found)`. -/
def detCollect (found : List String) (tokens : List String) : List AnswerRecord :=
  (mainLoop found (10 * found.length) tokens).1 ++
    remLoop found (mainLoop found (10 * found.length) tokens).2

/-- Python `sorted(set(ids))`. -/
def pySortedSet (l : List Int) : List Int :=
  (List.insertionSort (· ≤ ·) l).dedup

/-- Validation 2 (pdf_parser.py lines 312-320): for every subject, the
collected id list must equal its de-duplicated sorted version.  The source
iterates over the subjects present in `answers`; every record's subject is
drawn from `found`, and a found subject with no records passes trivially,
so iterating over `found` is equivalent. -/
def subjectIdsOk (found : List String) (answers : List AnswerRecord) : Bool :=
  found.all (fun s =>
    (answers.filter (fun a => a.subject == s)).filterMap (fun a => a.id) ==
      pySortedSet
        ((answers.filter (fun a => a.subject == s)).filterMap (fun a => a.id)))

/-- Embedding of `_parse_answer_table_deterministic` (pdf_parser.py lines 208-323). -/
def parseAnswerTableDeterministic (text : String) : List AnswerRecord :=
  if (detFound text).length < 2 then []
  else if detTokens text = [] then []
  else if (detCollect (detFound text) (detTokens text)).length <
      (detFound text).length * 10 then []
  else if subjectIdsOk (detFound text) (detCollect (detFound text) (detTokens text))
    then detCollect (detFound text) (detTokens text)
  else []

/-- An answer-table text whose two subjects are detected, whose record
count reaches the sanity floor, and whose per-subject question numbers are
strictly increasing but gapped (1, 3, 5, ..., 19). -/
def gappedAnswerText : String :=
  "무역규범\n무역결제\n문제번호\n정답\n" ++
  "1\n3\n5\n7\n9\n①\n②\n③\n④\n⑤\n1\n3\n5\n7\n9\n①\n②\n③\n④\n⑤\n" ++
  "11\n13\n15\n17\n19\n①\n②\n③\n④\n⑤\n11\n13\n15\n17\n19\n①\n②\n③\n④\n⑤"

/-- Constant `MAX_SECTION_CHARS` (config.py line 24). -/
def MAX_SECTION_CHARS : Nat := 80000

/-- Does a `[PAGE <digits>]` marker start at the head of `cs`?  This is
the zero-width lookahead pattern `(?=\[PAGE \d+\])` of
`_chunk_large_sections` (pdf_parser.py line 389). -/
def isPageMarkerAt (cs : List Char) : Bool :=
  decide (cs.take 6 = "[PAGE ".data) &&
  decide ((cs.drop 6).takeWhile Char.isDigit ≠ []) &&
  decide (((cs.drop 6).drop
    ((cs.drop 6).takeWhile Char.isDigit).length).take 1 = [']'])

/-- Python `re.split` on the zero-width pattern before page markers: cut immediately before every
position where a page marker starts (zero-width split, so the marker text
stays at the head of the following segment; a marker at position 0 yields
an empty first segment, as in Python). -/
def splitBMGo : List Char → List Char → List (List Char)
  | [], cur => [cur.reverse]
  | c :: rest, cur =>
    if isPageMarkerAt (c :: rest) then cur.reverse :: splitBMGo rest [c]
    else splitBMGo rest (c :: cur)

/-- The non-blank page segments of a section text
(pdf_parser.py lines 389-390). -/
def pagesOf (text : String) : List String :=
  ((splitBMGo text.data []).map String.mk).filter (fun p => !(pyStrip p == ""))

/-- Python `for i in range(0, len(pages), 5)` slicing, fuelled by the list
length (each step consumes at least one element). -/
def chunksOf5Fuel : Nat → List String → List (List String)
  | 0, _ => []
  | _, [] => []
  | fuel + 1, p :: rest => (p :: rest).take 5 :: chunksOf5Fuel fuel ((p :: rest).drop 5)

def chunksOf5 (l : List String) : List (List String) :=
  chunksOf5Fuel l.length l

/-- Embedding of `_chunk_large_sections` (pdf_parser.py lines 375-402): a section at
most `MAX_SECTION_CHARS` long, or with at most 5 page segments, passes
through unchanged; otherwise it is split into 5-page chunks whose label is
the subject itself, except for the generic subject `일반` which gets the
1-based chunk index appended. -/
def chunkLargeSections (sections : List (String × String)) :
    List (String × String) :=
  (sections.map (fun sec =>
    if sec.2.length ≤ MAX_SECTION_CHARS then [sec]
    else if (pagesOf sec.2).length ≤ 5 then [sec]
    else
      (chunksOf5 (pagesOf sec.2)).enum.map (fun p =>
        (if sec.1 ≠ "일반" then sec.1 else "일반_" ++ toString (p.1 + 1),
         String.join p.2)))).flatten

/-- One page worth of characters for the oversized-section examples: a
`[PAGE 1]` marker followed by 13400 letters. -/
def pageChars : List Char :=
  "[PAGE 1]".data ++ List.replicate 13400 'a'

/-- An oversized section text with no page markers at all. -/
def chunkDemoA : String := String.mk (List.replicate 80001 'a')

/-- An oversized section text consisting of six marker-led pages. -/
def chunkDemoB : String :=
  String.mk (pageChars ++ (pageChars ++ (pageChars ++ (pageChars ++
    (pageChars ++ pageChars)))))

/-- A PDF document as PyMuPDF exposes it to this code: the list of
per-page extracted texts.  (`_extract_text_with_underlines` for the
question path and plain `get_text()` for the answer path are extractors
over opaque page objects of the external library; the embedding takes the
extracted page text as the document datum.) -/
structure PdfDoc where
  pages : List String

/-- Constant `MAX_PDF_PAGES` (config.py line 18). -/
def MAX_PDF_PAGES : Nat := 200

/-- Python `str.replace(pat, "")` for a non-empty literal pattern, fuelled by
the text length (every step consumes at least one character). -/
def removeSubGo (pat : List Char) : Nat → List Char → List Char
  | 0, cs => cs
  | _, [] => []
  | fuel + 1, c :: cs =>
    if pat.isPrefixOf (c :: cs) then removeSubGo pat fuel ((c :: cs).drop pat.length)
    else c :: removeSubGo pat fuel cs

/-- The count `len(re.sub(..., full_text.replace(...)))` of non-whitespace characters
(pdf_parser.py line 114). -/
def countNonWs (text : String) : Nat :=
  ((removeSubGo "[PAGE".data (text.data.length + 1) text.data).filter
    (fun c => !(isPyWs c))).length

/-- The page-tagged full text, `"\n[PAGE i+1]\n" + page_text + "\n"`
accumulated over the pages (pdf_parser.py lines 104-111 and 193-195). -/
def pageTagged (pages : List String) : String :=
  (pages.enum.map
    (fun p => "\n[PAGE " ++ toString (p.1 + 1) ++ "]\n" ++ p.2 ++ "\n")).foldl
    (fun acc s => acc ++ s) ""

/-- The class of whitespace other than newline — the inline-whitespace
class of the subject-header pattern (pdf_parser.py line 334). -/
def isInlineWs (c : Char) : Bool :=
  isPyWs c && !(c == '\n')

/-- Match one spaced subject-header name (its characters joined by
`[^\S\n]+`) at the head of `cs`, returning the matched text and the rest.
Greedy whitespace consumption is equivalent to the regex because each
following name character is non-whitespace. -/
def matchSpacedName : List Char → List Char → Option (List Char × List Char)
  | [], cs => some ([], cs)
  | _ :: _, [] => none
  | c :: rest, d :: ds =>
    if c == d then
      match rest with
      | [] => some ([c], ds)
      | _ :: _ =>
        match ds.takeWhile isInlineWs with
        | [] => none
        | w :: ws =>
          match matchSpacedName rest (ds.drop (w :: ws).length) with
          | none => none
          | some (m, r) => some (c :: ((w :: ws) ++ m), r)
    else none

/-- Optional whitespace: consume at most one whitespace character. -/
def takeOptWs : List Char → List Char × List Char
  | [] => ([], [])
  | c :: cs => if isPyWs c then ([c], cs) else ([], c :: cs)

/-- Match `제\s?\d\s?<kw>` (with `kw` being `과목` or `교시`) at the head
of `cs`.  The single optional whitespace is consumed greedily, which is
equivalent to the regex because the digit and keyword that must follow are
not whitespace. -/
def matchOrdinal (kw : List Char) (cs : List Char) :
    Option (List Char × List Char) :=
  match cs with
  | [] => none
  | c :: cs1 =>
    if c == '제' then
      match (takeOptWs cs1).2 with
      | [] => none
      | d :: cs2 =>
        if d.isDigit then
          if kw.isPrefixOf (takeOptWs cs2).2 then
            some (c :: ((takeOptWs cs1).1 ++ [d] ++ (takeOptWs cs2).1 ++ kw),
              ((takeOptWs cs2).2).drop kw.length)
          else none
        else none
    else none

/-- The header alternation of `_split_text_by_subject`
(pdf_parser.py lines 335-344), alternatives tried in source order. -/
def matchHeaderAt (cs : List Char) : Option (List Char × List Char) :=
  match ["무역규범".data, "무역결제".data, "무역계약".data, "무역영어".data,
      "무역물류".data].findSome? (fun n => matchSpacedName n cs) with
  | some r => some r
  | none =>
    match matchOrdinal "과목".data cs with
    | some r => some r
    | none => matchOrdinal "교시".data cs

/-- Python `re.split(pattern, text)` with a capturing group: alternating
non-matching segments and matched headers, scanning left to right;
fuelled by the text length (every header match consumes at least one
character). -/
def splitHeadersGo : Nat → List Char → List Char → List (List Char)
  | 0, cs, cur => [cur.reverse ++ cs]
  | _ + 1, [], cur => [cur.reverse]
  | fuel + 1, c :: cs, cur =>
    match matchHeaderAt (c :: cs) with
    | some (m, rest) => cur.reverse :: m :: splitHeadersGo fuel rest []
    | none => splitHeadersGo fuel cs (c :: cur)

/-- Python `re.sub` deleting every whitespace character of `s`. -/
def removeWsAll (s : String) : String :=
  String.mk (s.data.filter (fun c => !(isPyWs c)))

/-- The section-building loop of `_split_text_by_subject`
(pdf_parser.py lines 351-367): pair each header with the following
content, merge the pre-header text into the first header's content, keep
only sections with non-empty content. -/
def buildSections : List String → String → List (String × String)
  | [], _ => []
  | [hdr], pre =>
    if pre ≠ "" then [(removeWsAll (pyStrip hdr), pre ++ "\n" ++ "")] else []
  | hdr :: content :: rest, pre =>
    (if (if pre ≠ "" then pre ++ "\n" ++ pyStrip content else pyStrip content) ≠ ""
     then [(removeWsAll (pyStrip hdr),
       if pre ≠ "" then pre ++ "\n" ++ pyStrip content else pyStrip content)]
     else []) ++ buildSections rest ""

/-- Embedding of `_split_text_by_subject` (pdf_parser.py lines 325-373). -/
def splitTextBySubject (text : String) : List (String × String) :=
  match (splitHeadersGo (text.data.length + 1) text.data []).map String.mk with
  | [] => [("일반", text)]
  | s0 :: rest =>
    if buildSections rest (pyStrip s0) = [] then [("일반", text)]
    else buildSections rest (pyStrip s0)

/-- Embedding of `parse_pdf` (pdf_parser.py lines 79-159).  The OpenAI client presence
is the boolean `clientOk`; the per-section LLM extraction
(`_extract_questions_from_text`, which catches its own errors and returns
a list) is the oracle `llmQuestions sectionText subjectHint`; worker
results are collected by section index and concatenated in order, which
is the order-preserving map-flatten below.  An uncaught
`ValueError`/`RuntimeError` is `Except.error`; the `except` branch around
`fitz.open` (lines 91-95) catches an open failure and returns `[]`. -/
def parse_pdf (fitzOpen : List Nat → Except String PdfDoc) (clientOk : Bool)
    (llmQuestions : String → String → List Question) (fileBytes : List Nat) :
    Except String (List Question) :=
  if fileBytes = [] then Except.error "PDF 파일이 비어 있습니다."
  else if clientOk = false then
    Except.error "OpenAI API 키가 올바르지 않거나 클라이언트 초기화에 실패했습니다."
  else
    match fitzOpen fileBytes with
    | Except.error _ => Except.ok []
    | Except.ok doc =>
      if MAX_PDF_PAGES < doc.pages.length then
        Except.error "PDF 페이지가 너무 많습니다."
      else if countNonWs (pageTagged doc.pages) < 100 then
        Except.error "이 PDF는 스캔 이미지로 구성되어 텍스트를 추출할 수 없습니다."
      else
        Except.ok (((chunkLargeSections
            (splitTextBySubject (pageTagged doc.pages))).map
          (fun s => llmQuestions s.2 s.1)).flatten)

/-- Embedding of `parse_answer_pdf` (pdf_parser.py lines 162-205).  The body is
wrapped in `try/finally` with *no* `except` clause: a failure of
`fitz.open` on non-empty malformed bytes propagates to the caller. -/
def parse_answer_pdf (fitzOpen : List Nat → Except String PdfDoc)
    (clientOk : Bool) (llmAnswers : String → String → List AnswerRecord)
    (fileBytes : List Nat) : Except String (List AnswerRecord) :=
  if fileBytes = [] then Except.ok []
  else
    match fitzOpen fileBytes with
    | Except.error e => Except.error e
    | Except.ok doc =>
      if parseAnswerTableDeterministic
          ((doc.pages.map (fun t => t ++ "\n")).foldl (fun acc s => acc ++ s) "") ≠ []
      then Except.ok (parseAnswerTableDeterministic
          ((doc.pages.map (fun t => t ++ "\n")).foldl (fun acc s => acc ++ s) ""))
      else if clientOk = false then Except.ok []
      else
        Except.ok (((splitTextBySubject (pageTagged doc.pages)).map
          (fun s => llmAnswers s.2 s.1)).flatten)

/-- C1: every successfully constructed `Question` has an answer that is
empty or a member of its options, and at least two options; a candidate
violating either condition is rejected with a validation error. -/
theorem question_construction_invariant
    (id : Int) (subject : String) (context : Option String)
    (question_text : String) (options : List String) (answer : String)
    (explanation : String) (page_number : Int) :
    (∀ q, mkQuestion id subject context question_text options answer
        explanation page_number = Except.ok q →
      (q.answer = "" ∨ q.answer ∈ q.options) ∧ 2 ≤ q.options.length) ∧
    (options.length < 2 ∨ (answer ≠ "" ∧ answer ∉ options) →
      ∃ e, mkQuestion id subject context question_text options answer
        explanation page_number = Except.error e) := by
  constructor
  · intro q hq
    unfold mkQuestion at hq
    split at hq
    · exact absurd hq (by simp)
    · split at hq
      · exact absurd hq (by simp)
      · split at hq
        · exact absurd hq (by simp)
        · split at hq
          · exact absurd hq (by simp)
          · rename_i hlen htext hopt hans
            cases hq
            refine ⟨?_, show 2 ≤ options.length by omega⟩
            by_cases hemp : answer = ""
            · exact Or.inl hemp
            · right
              by_cases hm : answer ∈ options
              · exact hm
              · exact absurd ⟨hemp, hm⟩ hans
  · intro hviol
    unfold mkQuestion
    split
    · exact ⟨_, rfl⟩
    · split
      · exact ⟨_, rfl⟩
      · split
        · exact ⟨_, rfl⟩
        · split
          · exact ⟨_, rfl⟩
          · rename_i hopt hans
            rcases hviol with h | h
            · exact absurd h hopt
            · exact absurd h hans

/-- Witness for C1: a concrete accepted question satisfies the invariant,
and a concrete one-option candidate is rejected. -/
theorem question_construction_invariant_witness :
    (((Question.mk 1 "무역규범" none "q" ["① A", "② B"] "" "" 1).answer = "" ∨
      (Question.mk 1 "무역규범" none "q" ["① A", "② B"] "" "" 1).answer ∈
        (Question.mk 1 "무역규범" none "q" ["① A", "② B"] "" "" 1).options) ∧
      2 ≤ (Question.mk 1 "무역규범" none "q" ["① A", "② B"] "" "" 1).options.length) ∧
    (∃ e, mkQuestion 1 "무역규범" none "q" ["① A"] "" "" 1 = Except.error e) :=
  ⟨(question_construction_invariant 1 "무역규범" none "q" ["① A", "② B"] "" "" 1).1
      (Question.mk 1 "무역규범" none "q" ["① A", "② B"] "" "" 1) (by rfl),
   (question_construction_invariant 1 "무역규범" none "q" ["① A"] "" "" 1).2
      (Or.inl (by decide))⟩

/-- The result of `_match_answer_to_option` is empty or a member of the
options: every return point yields `""`, an option found by membership, or
an option found by `find?`. -/
theorem matchAnswerToOption_mem (answerText : String) (options : List String) :
    matchAnswerToOption answerText options = "" ∨
      matchAnswerToOption answerText options ∈ options := by
  unfold matchAnswerToOption
  split
  · exact Or.inl rfl
  · split
    · exact Or.inr (by assumption)
    · split
      · next h => exact Or.inr (List.mem_of_find?_eq_some h)
      · unfold glyphStep
        split
        · exact Or.inl rfl
        · split
          · exact Or.inl rfl
          · split
            · exact Or.inr (by assumption)
            · split
              · next h => exact Or.inr (List.mem_of_find?_eq_some h)
              · exact Or.inl rfl

/-- C6: answer normalization tries exact match, then prefix match, then
digit-to-circled-glyph conversion followed by exact/prefix match, and
yields `""` when no rule matches; in particular, with options
`["① A", "② B"]` the raw token `"2"` resolves to `"② B"`. -/
theorem answer_normalization_cascade :
    matchAnswerToOption "2" ["① A", "② B"] = "② B" ∧
    ∀ (answerText : String) (options : List String),
      (answerText = "" → matchAnswerToOption answerText options = "") ∧
      (answerText ≠ "" → pyStrip answerText ∈ options →
        matchAnswerToOption answerText options = pyStrip answerText) ∧
      (answerText ≠ "" → pyStrip answerText ∉ options →
        ∀ opt, options.find?
            (fun o => pyStartswith (pyStrip answerText) (pyStrip o)) = some opt →
          matchAnswerToOption answerText options = opt) ∧
      (answerText ≠ "" → pyStrip answerText ∉ options →
        options.find?
          (fun o => pyStartswith (pyStrip answerText) (pyStrip o)) = none →
        matchAnswerToOption answerText options =
          glyphStep (pyStrip answerText) options) ∧
      (¬ anyRuleMatches (pyStrip answerText) options →
        matchAnswerToOption answerText options = "") := by
  refine ⟨by decide, ?_⟩
  intro answerText options
  refine ⟨?_, ?_, ?_, ?_, ?_⟩
  · intro h
    simp [matchAnswerToOption, h]
  · intro hne hmem
    rw [matchAnswerToOption, if_neg hne, if_pos hmem]
  · intro hne hnmem opt hfind
    rw [matchAnswerToOption, if_neg hne, if_neg hnmem, hfind]
  · intro hne hnmem hfind
    rw [matchAnswerToOption, if_neg hne, if_neg hnmem, hfind]
  · intro hnone
    unfold anyRuleMatches at hnone
    push_neg at hnone
    obtain ⟨hnmem, hnpre, hglyph⟩ := hnone
    by_cases hne : answerText = ""
    · simp [matchAnswerToOption, hne]
    · have hfind : options.find?
          (fun o => pyStartswith (pyStrip answerText) (pyStrip o)) = none := by
        cases hf : options.find?
            (fun o => pyStartswith (pyStrip answerText) (pyStrip o)) with
        | none => rfl
        | some opt =>
          exact absurd (List.find?_some hf)
            (by simpa using hnpre opt (List.mem_of_find?_eq_some hf))
      rw [matchAnswerToOption, if_neg hne, if_neg hnmem, hfind]
      show glyphStep (pyStrip answerText) options = ""
      cases hd : firstDigitRun (pyStrip answerText) with
      | none => simp [glyphStep, hd]
      | some num =>
        cases hl : circledPairs.lookup num with
        | none => simp [glyphStep, hd, hl]
        | some sym =>
          obtain ⟨hsmem, hspre⟩ := hglyph num sym hd hl
          have hf : options.find? (fun opt => pyStartswith sym (pyStrip opt)) = none := by
            cases hf2 : options.find? (fun opt => pyStartswith sym (pyStrip opt)) with
            | none => rfl
            | some opt =>
              exact absurd (List.find?_some hf2)
                (by simpa using hspre opt (List.mem_of_find?_eq_some hf2))
          simp [glyphStep, hd, hl, hsmem, hf]

/-- Witness for C6: the prefix rule resolves `"④"` against
`["④ DDP", "⑤ EXW"]`. -/
theorem answer_normalization_cascade_witness :
    matchAnswerToOption "④" ["④ DDP", "⑤ EXW"] = "④ DDP" :=
  ((answer_normalization_cascade.2 "④" ["④ DDP", "⑤ EXW"]).2.2.1
    (by decide) (by decide)) "④ DDP" (by decide)

/-- C2: every `Question` returned by `merge_answers` has an answer that is
empty or a verbatim member of that same question's options, provided the
input questions satisfy their construction invariant (which every
pydantic-validated `Question` does). -/
theorem merge_answer_safe (questions : List Question) (answers : List AnswerRecord)
    (hinv : ∀ q ∈ questions, q.answer = "" ∨ q.answer ∈ q.options) :
    ∀ q ∈ mergeAnswers questions answers,
      q.answer = "" ∨ q.answer ∈ q.options := by
  intro q' hq'
  unfold mergeAnswers at hq'
  simp only [List.mem_map] at hq'
  obtain ⟨q, hq, hq'eq⟩ := hq'
  subst hq'eq
  cases h : lookupInfo answers q with
  | none => simp only [h]; exact hinv q hq
  | some a =>
    simp only [h]
    rcases matchAnswerToOption_mem a.answer q.options with he | hm
    · exact Or.inl (by simp [applyRecord, he])
    · exact Or.inr (by simpa [applyRecord] using hm)

/-- Witness for C2: merging a record with the raw token `"2"` into a
question with options `["① A", "② B"]` produces the normalized member
`"② B"`, which satisfies the safety property. -/
theorem merge_answer_safe_witness :
    (Question.mk 1 "무역규범" none "q" ["① A", "② B"] "② B" "" 1).answer = "" ∨
    (Question.mk 1 "무역규범" none "q" ["① A", "② B"] "② B" "" 1).answer ∈
      (Question.mk 1 "무역규범" none "q" ["① A", "② B"] "② B" "" 1).options :=
  merge_answer_safe
    [Question.mk 1 "무역규범" none "q" ["① A", "② B"] "" "" 1]
    [AnswerRecord.mk (some 1) "무역규범" "2" ""]
    (by decide)
    (Question.mk 1 "무역규범" none "q" ["① A", "② B"] "② B" "" 1)
    (by decide)

/-- C5: `merge_answers` is order-preserving — output length equals input
length, the i-th output corresponds to the i-th input (all fields other
than `answer`/`explanation` are preserved), and a question whose lookup
finds no record passes through unchanged in all fields. -/
theorem merge_order_preserving (questions : List Question)
    (answers : List AnswerRecord) :
    (mergeAnswers questions answers).length = questions.length ∧
    ∀ i q, questions.get? i = some q →
      ∃ q', (mergeAnswers questions answers).get? i = some q' ∧
        q'.id = q.id ∧ q'.subject = q.subject ∧ q'.context = q.context ∧
        q'.question_text = q.question_text ∧ q'.options = q.options ∧
        q'.page_number = q.page_number ∧
        (lookupInfo answers q = none → q' = q) := by
  constructor
  · simp [mergeAnswers]
  · intro i q hq
    have hget : (mergeAnswers questions answers).get? i =
        some (match lookupInfo answers q with
          | some a => applyRecord a q
          | none => q) := by
      unfold mergeAnswers
      rw [List.get?_map, hq]
      rfl
    refine ⟨_, hget, ?_⟩
    cases h : lookupInfo answers q with
    | none => simp [h]
    | some a => simp [h, applyRecord]

/-- Witness for C5: a question with no matching record passes through
`merge_answers` unchanged. -/
theorem merge_order_preserving_witness :
    (mergeAnswers [Question.mk 7 "기타" none "q7" ["①", "②"] "" "" 1] []).get? 0 =
      some (Question.mk 7 "기타" none "q7" ["①", "②"] "" "" 1) := by
  obtain ⟨q', hget, _, _, _, _, _, _, hnone⟩ :=
    (merge_order_preserving [Question.mk 7 "기타" none "q7" ["①", "②"] "" "" 1] []).2
      0 (Question.mk 7 "기타" none "q7" ["①", "②"] "" "" 1) rfl
  rw [hget, hnone (by decide)]

/-- Searching a list purged of key `k` never finds key `k`. -/
theorem find?_filterOut_none {κ β : Type} [DecidableEq κ]
    (d : List (κ × β)) (k : κ) :
    (d.filter (fun p => decide (p.1 ≠ k))).find? (fun p => decide (p.1 = k)) = none := by
  induction d with
  | nil => rfl
  | cons p rest ih =>
    by_cases h : p.1 = k
    · simp [List.filter_cons, h, ih]
    · simp [List.filter_cons, h, List.find?_cons, ih]

/-- Search distributes over append when the first part fails. -/
theorem find?_append_of_none {α : Type} (l₁ l₂ : List α) (p : α → Bool)
    (h : l₁.find? p = none) : (l₁ ++ l₂).find? p = l₂.find? p := by
  induction l₁ with
  | nil => rfl
  | cons a rest ih =>
    have hpa : ¬ p a = true := by
      intro hpa
      rw [List.find?_cons_of_pos _ hpa] at h
      exact absurd h (by simp)
    rw [List.find?_cons_of_neg _ hpa] at h
    rw [List.cons_append, List.find?_cons_of_neg _ hpa]
    exact ih h

/-- Search ignores an appended tail in which nothing matches. -/
theorem find?_append_right_none {α : Type} (l₁ l₂ : List α) (p : α → Bool)
    (h : l₂.find? p = none) : (l₁ ++ l₂).find? p = l₁.find? p := by
  induction l₁ with
  | nil => simpa using h
  | cons a rest ih =>
    rcases hpa : p a with _ | _
    · rw [List.cons_append, List.find?_cons_of_neg _ (by simp [hpa]),
        List.find?_cons_of_neg _ (by simp [hpa])]
      exact ih
    · rw [List.cons_append, List.find?_cons_of_pos _ hpa,
        List.find?_cons_of_pos _ hpa]

/-- A dict assignment makes its own key readable. -/
theorem pyGet_pySet_self {κ β : Type} [DecidableEq κ]
    (d : List (κ × β)) (k : κ) (v : β) :
    pyGet (pySet d k v) k = some v := by
  unfold pyGet pySet
  rw [find?_append_of_none _ _ _ (find?_filterOut_none d k)]
  simp [List.find?_cons]

/-- Filtering out key `k` does not change lookups of a different key. -/
theorem find?_filterOut_other {κ β : Type} [DecidableEq κ]
    (d : List (κ × β)) (k k' : κ) (h : k' ≠ k) :
    (d.filter (fun p => decide (p.1 ≠ k))).find? (fun p => decide (p.1 = k')) =
      d.find? (fun p => decide (p.1 = k')) := by
  induction d with
  | nil => rfl
  | cons q rest ih =>
    by_cases h1 : q.1 = k
    · have h2 : ¬ q.1 = k' := fun hc => h (by rw [← hc, h1])
      rw [List.filter_cons_of_neg (by simp [h1]),
        List.find?_cons_of_neg _ (by simp [h2])]
      exact ih
    · by_cases h2 : q.1 = k'
      · rw [List.filter_cons_of_pos (by simp [h1]),
          List.find?_cons_of_pos _ (by simp [h2]),
          List.find?_cons_of_pos _ (by simp [h2])]
      · rw [List.filter_cons_of_pos (by simp [h1]),
          List.find?_cons_of_neg _ (by simp [h2]),
          List.find?_cons_of_neg _ (by simp [h2])]
        exact ih

/-- A dict assignment leaves other keys unchanged. -/
theorem pyGet_pySet_ne {κ β : Type} [DecidableEq κ]
    (d : List (κ × β)) (k k' : κ) (v : β) (h : k' ≠ k) :
    pyGet (pySet d k v) k' = pyGet d k' := by
  unfold pyGet pySet
  rw [find?_append_right_none _ _ _ (by
      rw [List.find?_cons_of_neg _ (by simp [Ne.symm h])]
      rfl),
    find?_filterOut_other d k k' h]

/-- The id-only fallback map of `merge_answers` retains, for every id, the
record appearing *last* in the input answer list (later dict assignments
overwrite earlier ones). -/
theorem buildMaps_idmap (answers : List AnswerRecord) (aid : Int) :
    pyGet (buildMaps answers).2 aid =
      (answers.filter (fun a => decide (a.id = some aid))).getLast? := by
  induction answers using List.reverseRecOn with
  | nil => rfl
  | append_singleton l a ih =>
    rw [buildMaps, List.foldl_append, List.foldl_cons, List.foldl_nil]
    rw [buildMaps] at ih
    cases ha : a.id with
    | none =>
      have hstep : mergeStep (List.foldl mergeStep ([], []) l) a =
          List.foldl mergeStep ([], []) l := by
        unfold mergeStep
        rw [ha]
      rw [hstep, ih, List.filter_append]
      have hfa : List.filter (fun a2 => decide (a2.id = some aid)) [a] = [] := by
        simp [ha]
      rw [hfa, List.append_nil]
    | some aid2 =>
      have hstep : (mergeStep (List.foldl mergeStep ([], []) l) a).2 =
          pySet (List.foldl mergeStep ([], []) l).2 aid2 a := by
        unfold mergeStep
        rw [ha]
      rw [hstep]
      by_cases heq : aid2 = aid
      · rw [heq, pyGet_pySet_self, List.filter_append]
        have hfa : List.filter (fun a2 => decide (a2.id = some aid)) [a] = [a] := by
          simp [ha, heq]
        rw [hfa]
        simp
      · rw [pyGet_pySet_ne _ _ _ _ (fun hc => heq hc.symm), ih, List.filter_append]
        have hfa : List.filter (fun a2 => decide (a2.id = some aid)) [a] = [] := by
          simp [ha, heq]
        rw [hfa, List.append_nil]

/-- C10: when the composite `(normalized subject, id)` lookup misses, a
question is merged with the record appearing *last* in the answer list
among those sharing its id — regardless of that record's subject. -/
theorem merge_id_fallback_last_wins (questions : List Question)
    (answers : List AnswerRecord) (i : Nat) (q : Question) (r : AnswerRecord)
    (hq : questions.get? i = some q)
    (hmiss : pyGet (buildMaps answers).1 (normalizeSubject q.subject, q.id) = none)
    (hlast : (answers.filter (fun a => decide (a.id = some q.id))).getLast? = some r) :
    (mergeAnswers questions answers).get? i = some (applyRecord r q) := by
  have hli : lookupInfo answers q = some r := by
    unfold lookupInfo pyOrOpt
    rw [hmiss, buildMaps_idmap, hlast]
  unfold mergeAnswers
  rw [List.get?_map, hq]
  simp [hli]

/-- Witness for C10: two records share id 1 with different subjects; a
question whose subject matches neither is merged with the second (last)
record, the one with subject `무역결제`. -/
theorem merge_id_fallback_last_wins_witness :
    (mergeAnswers [Question.mk 1 "기타" none "q" ["①", "②"] "" "" 1]
        [AnswerRecord.mk (some 1) "무역규범" "①" "",
         AnswerRecord.mk (some 1) "무역결제" "②" ""]).get? 0 =
      some (applyRecord (AnswerRecord.mk (some 1) "무역결제" "②" "")
        (Question.mk 1 "기타" none "q" ["①", "②"] "" "" 1)) :=
  merge_id_fallback_last_wins
    [Question.mk 1 "기타" none "q" ["①", "②"] "" "" 1]
    [AnswerRecord.mk (some 1) "무역규범" "①" "",
     AnswerRecord.mk (some 1) "무역결제" "②" ""]
    0 (Question.mk 1 "기타" none "q" ["①", "②"] "" "" 1)
    (AnswerRecord.mk (some 1) "무역결제" "②" "")
    rfl (by decide) (by decide)

/-- C7: the deterministic parser returns the empty list when fewer than 2
closed-set subject names occur as headers, and also when the number of
collected records is below 10 times the number of detected subjects. -/
theorem deterministic_parser_floor (text : String) :
    ((detFound text).length < 2 → parseAnswerTableDeterministic text = []) ∧
    (2 ≤ (detFound text).length →
      (detCollect (detFound text) (detTokens text)).length <
        (detFound text).length * 10 →
      parseAnswerTableDeterministic text = []) := by
  constructor
  · intro h
    unfold parseAnswerTableDeterministic
    rw [if_pos h]
  · intro h2 hfloor
    unfold parseAnswerTableDeterministic
    rw [if_neg (by omega)]
    by_cases ht : detTokens text = []
    · rw [if_pos ht]
    · rw [if_neg ht, if_pos hfloor]

/-- Witness for C7: no subject headers at all, and two subject headers
with no answer tokens, both yield the empty result. -/
theorem deterministic_parser_floor_witness :
    parseAnswerTableDeterministic "" = [] ∧
    parseAnswerTableDeterministic "무역규범 무역결제" = [] :=
  ⟨(deterministic_parser_floor "").1 (by decide),
   (deterministic_parser_floor "무역규범 무역결제").2 (by decide) (by decide)⟩

/-- C3 (code bug): the all-or-nothing validation is claimed (and stated by
the source's own comment, pdf_parser.py line 312) to reject any subject
whose recovered ids are not a gapless sequence starting at 1, but the code
only compares the id list with `sorted(set(ids))`: on `gappedAnswerText`
every 무역규범 id sequence is `1, 3, 5, ..., 19` — gapped — and the parser
still returns all 20 records instead of the empty list. -/
theorem deterministic_parser_accepts_gapped_ids :
    (parseAnswerTableDeterministic gappedAnswerText).length = 20 ∧
    (parseAnswerTableDeterministic gappedAnswerText).filterMap
        (fun a => if a.subject = "무역규범" then a.id else none) =
      [1, 3, 5, 7, 9, 11, 13, 15, 17, 19] := by
  decide

/-- Stripping leaves a string alone when its first and last characters are
non-whitespace. -/
theorem pyStripList_sandwich (a b : Char) (mid : List Char)
    (ha : isPyWs a = false) (hb : isPyWs b = false) :
    pyStripList (a :: (mid ++ [b])) = a :: (mid ++ [b]) := by
  unfold pyStripList
  rw [List.dropWhile_cons, ha]
  simp only [Bool.false_eq_true, if_false]
  have h1 : (a :: (mid ++ [b])).reverse = b :: (mid.reverse ++ [a]) := by simp
  rw [h1, List.dropWhile_cons, hb]
  simp only [Bool.false_eq_true, if_false]
  simp

/-- The cons-step equation of `splitBMGo`, for rewriting without
unfolding the large literals inside page texts. -/
theorem splitBMGo_cons (c : Char) (rest cur : List Char) :
    splitBMGo (c :: rest) cur =
      if isPageMarkerAt (c :: rest) then cur.reverse :: splitBMGo rest [c]
      else splitBMGo rest (c :: cur) := rfl

/-- A page marker never starts at a character other than `[`. -/
theorem isPageMarkerAt_of_ne (c : Char) (rest : List Char) (h : c ≠ '[') :
    isPageMarkerAt (c :: rest) = false := by
  unfold isPageMarkerAt
  have hd : "[PAGE ".data = ['[', 'P', 'A', 'G', 'E', ' '] := rfl
  have htake : (c :: rest).take 6 = c :: rest.take 5 := rfl
  rw [htake, hd]
  simp [h]

/-- Scanning a bracket-free run just moves it into the accumulator. -/
theorem splitBMGo_consume (cs : List Char) (h : ∀ c ∈ cs, c ≠ '[') :
    ∀ rest cur, splitBMGo (cs ++ rest) cur = splitBMGo rest (cs.reverse ++ cur) := by
  induction cs with
  | nil => intro rest cur; simp
  | cons c cs' ih =>
    intro rest cur
    rw [List.cons_append]
    simp only [splitBMGo]
    rw [isPageMarkerAt_of_ne c _ (h c (by simp))]
    simp only [Bool.false_eq_true, if_false]
    rw [ih (fun x hx => h x (by simp [hx]))]
    simp

/-- The page text `pageChars` contains no opening bracket after its head. -/
theorem pageTail_no_bracket :
    ∀ c ∈ ("PAGE 1]".data ++ List.replicate 13400 'a'), c ≠ '[' := by
  intro c hc
  rcases List.mem_append.1 hc with h | h
  · have hd : "PAGE 1]".data = ['P', 'A', 'G', 'E', ' ', '1', ']'] := rfl
    rw [hd] at h
    fin_cases h <;> decide
  · rw [List.eq_of_mem_replicate h]
    decide

/-- One page step of the marker split. -/
theorem splitBMGo_page_step (rest cur : List Char) :
    splitBMGo (pageChars ++ rest) cur =
      cur.reverse :: splitBMGo rest pageChars.reverse := by
  have hc : pageChars ++ rest =
      '[' :: (("PAGE 1]".data ++ List.replicate 13400 'a') ++ rest) := rfl
  have hmark : isPageMarkerAt (pageChars ++ rest) = true := rfl
  rw [hc] at hmark ⊢
  rw [splitBMGo_cons, if_pos hmark]
  rw [splitBMGo_consume _ pageTail_no_bracket rest ['[']]
  have hrev : ("PAGE 1]".data ++ List.replicate 13400 'a').reverse ++ ['['] =
      pageChars.reverse := by
    rw [show pageChars = '[' :: ("PAGE 1]".data ++ List.replicate 13400 'a') from rfl,
      List.reverse_cons]
  rw [hrev]

/-- The terminal page step. -/
theorem splitBMGo_page_last (cur : List Char) :
    splitBMGo pageChars cur = cur.reverse :: [pageChars] := by
  have h := splitBMGo_page_step [] cur
  rw [List.append_nil] at h
  rw [h]
  have h2 : splitBMGo [] pageChars.reverse = [pageChars.reverse.reverse] := rfl
  rw [h2, List.reverse_reverse]

/-- The marker split of the six-page demo text: an empty leading segment
followed by the six pages. -/
theorem splitBM_chunkDemoB :
    splitBMGo chunkDemoB.data [] =
      [[], pageChars, pageChars, pageChars, pageChars, pageChars, pageChars] := by
  show splitBMGo (pageChars ++ (pageChars ++ (pageChars ++ (pageChars ++
    (pageChars ++ pageChars))))) [] = _
  rw [splitBMGo_page_step, splitBMGo_page_step, splitBMGo_page_step,
    splitBMGo_page_step, splitBMGo_page_step, splitBMGo_page_last]
  simp

/-- The bracket-free demo text splits into a single segment. -/
theorem splitBM_chunkDemoA :
    splitBMGo chunkDemoA.data [] = [List.replicate 80001 'a'] := by
  show splitBMGo (List.replicate 80001 'a') [] = _
  have h := splitBMGo_consume (List.replicate 80001 'a')
    (fun c hc => by rw [List.eq_of_mem_replicate hc]; decide) [] []
  rw [List.append_nil, List.append_nil] at h
  rw [h]
  have h2 : splitBMGo ([] : List Char) ((List.replicate 80001 'a').reverse) =
      [((List.replicate 80001 'a').reverse).reverse] := rfl
  rw [h2, List.reverse_reverse]

theorem chunkDemoA_length : chunkDemoA.length = 80001 := by
  show (List.replicate 80001 'a').length = 80001
  exact List.length_replicate _ _

theorem pageChars_length : pageChars.length = 13408 := by
  unfold pageChars
  rw [List.length_append, List.length_replicate,
    show ("[PAGE 1]".data).length = 8 from rfl]

theorem chunkDemoB_length : chunkDemoB.length = 80448 := by
  show (pageChars ++ (pageChars ++ (pageChars ++ (pageChars ++
    (pageChars ++ pageChars))))).length = 80448
  rw [List.length_append, List.length_append, List.length_append,
    List.length_append, List.length_append, pageChars_length]

/-- The page text `pageChars` written with non-whitespace first and last characters. -/
theorem pageChars_sandwich :
    pageChars = '[' :: (("PAGE 1]".data ++ List.replicate 13399 'a') ++ ['a']) := by
  unfold pageChars
  rw [show (13400 : Nat) = 13399 + 1 from rfl, List.replicate_add,
    List.replicate_one]
  rw [show "[PAGE 1]".data = '[' :: "PAGE 1]".data from rfl]
  rw [List.cons_append, List.append_assoc]

/-- Stripping a page string changes nothing. -/
theorem pyStrip_page : pyStrip (String.mk pageChars) = String.mk pageChars := by
  show String.mk (pyStripList pageChars) = String.mk pageChars
  rw [pageChars_sandwich, pyStripList_sandwich _ _ _ (by decide) (by decide)]

theorem page_ne_empty : String.mk pageChars ≠ "" := by
  intro hcontra
  have hdata : pageChars = ("" : String).data := congrArg String.data hcontra
  rw [pageChars_sandwich] at hdata
  exact List.noConfusion
    (show '[' :: (("PAGE 1]".data ++ List.replicate 13399 'a') ++ ['a']) =
      ([] : List Char) from hdata)

/-- The big replicate written with explicit first and last characters. -/
theorem replicate_big_split :
    List.replicate 80001 'a' = 'a' :: (List.replicate 79999 'a' ++ ['a']) := by
  rw [show (80001 : Nat) = 1 + (79999 + 1) from rfl, List.replicate_add,
    List.replicate_add, List.replicate_one]
  rw [List.singleton_append]

/-- Stripping the all-letters demo string changes nothing. -/
theorem pyStrip_chunkDemoA : pyStrip chunkDemoA = chunkDemoA := by
  show String.mk (pyStripList (List.replicate 80001 'a')) = _
  rw [show chunkDemoA = String.mk (List.replicate 80001 'a') from rfl,
    replicate_big_split, pyStripList_sandwich _ _ _ (by decide) (by decide)]

theorem chunkDemoA_ne_empty : chunkDemoA ≠ "" := by
  intro hcontra
  have hdata : List.replicate 80001 'a' = ("" : String).data :=
    congrArg String.data hcontra
  rw [replicate_big_split] at hdata
  exact List.noConfusion
    (show 'a' :: (List.replicate 79999 'a' ++ ['a']) = ([] : List Char) from hdata)

/-- The page segments of the no-marker demo: the whole text. -/
theorem pagesOf_chunkDemoA : pagesOf chunkDemoA = [chunkDemoA] := by
  unfold pagesOf
  rw [splitBM_chunkDemoA, List.map_cons, List.map_nil,
    show String.mk (List.replicate 80001 'a') = chunkDemoA from rfl]
  have hne : pyStrip chunkDemoA ≠ "" := by
    rw [pyStrip_chunkDemoA]; exact chunkDemoA_ne_empty
  have hpred : (!(pyStrip chunkDemoA == "")) = true := by
    rw [beq_eq_false_iff_ne.mpr hne]
    rfl
  rw [List.filter_cons, if_pos hpred, List.filter_nil]

/-- The page segments of the six-page demo: the six pages. -/
theorem pagesOf_chunkDemoB :
    pagesOf chunkDemoB =
      [String.mk pageChars, String.mk pageChars, String.mk pageChars,
       String.mk pageChars, String.mk pageChars, String.mk pageChars] := by
  unfold pagesOf
  rw [splitBM_chunkDemoB, List.map_cons, List.map_cons, List.map_cons,
    List.map_cons, List.map_cons, List.map_cons, List.map_cons, List.map_nil,
    show String.mk ([] : List Char) = "" from rfl]
  have hne : pyStrip (String.mk pageChars) ≠ "" := by
    rw [pyStrip_page]; exact page_ne_empty
  have hpred : (!(pyStrip (String.mk pageChars) == "")) = true := by
    rw [beq_eq_false_iff_ne.mpr hne]
    rfl
  have hempty : ¬ ((!(pyStrip "" == "")) = true) := by decide
  rw [List.filter_cons, if_neg hempty, List.filter_cons, if_pos hpred,
    List.filter_cons, if_pos hpred, List.filter_cons, if_pos hpred,
    List.filter_cons, if_pos hpred, List.filter_cons, if_pos hpred,
    List.filter_cons, if_pos hpred, List.filter_nil]

/-- Chunking a six-element page list: one full 5-chunk and one leftover. -/
theorem chunksOf5_six (p : String) :
    chunksOf5 [p, p, p, p, p, p] = [[p, p, p, p, p], [p]] := rfl

/-- C9 (amended): a section whose text exceeds `MAX_SECTION_CHARS` is
split into 5-page chunks only when it has more than 5 page segments
(otherwise it passes through whole), and — for a non-generic subject —
every chunk's label is the parent subject unchanged, with no chunk index. -/
theorem chunk_sections_amended (subject text : String)
    (hlen : MAX_SECTION_CHARS < text.length) (hsub : subject ≠ "일반") :
    (5 < (pagesOf text).length →
      chunkLargeSections [(subject, text)] =
        (chunksOf5 (pagesOf text)).enum.map
          (fun p => (subject, String.join p.2))) ∧
    ((pagesOf text).length ≤ 5 →
      chunkLargeSections [(subject, text)] = [(subject, text)]) ∧
    (∀ pr ∈ chunkLargeSections [(subject, text)], pr.1 = subject) := by
  have hle : ¬ text.length ≤ MAX_SECTION_CHARS := by omega
  refine ⟨?_, ?_, ?_⟩
  · intro hp
    unfold chunkLargeSections
    rw [List.map_cons, List.map_nil]
    dsimp only
    rw [if_neg hle, if_neg (by omega)]
    simp only [List.flatten, List.append_nil]
    refine List.map_congr_left ?_
    intro p _
    rw [if_pos hsub]
  · intro hp
    unfold chunkLargeSections
    rw [List.map_cons, List.map_nil]
    dsimp only
    rw [if_neg hle, if_pos hp]
    rfl
  · intro pr hpr
    unfold chunkLargeSections at hpr
    rw [List.map_cons, List.map_nil] at hpr
    dsimp only at hpr
    rw [if_neg hle] at hpr
    by_cases hp : (pagesOf text).length ≤ 5
    · rw [if_pos hp] at hpr
      simp only [List.flatten, List.append_nil, List.mem_singleton] at hpr
      rw [hpr]
    · rw [if_neg hp] at hpr
      simp only [List.flatten, List.append_nil, List.mem_map] at hpr
      obtain ⟨p, _, hpeq⟩ := hpr
      rw [← hpeq, if_pos hsub]

/-- Witness for the amended C9: the six-page oversized demo section is
split into 5-page chunks, each labeled with the bare parent subject. -/
theorem chunk_sections_amended_witness :
    chunkLargeSections [("무역규범", chunkDemoB)] =
      (chunksOf5 (pagesOf chunkDemoB)).enum.map
        (fun p => ("무역규범", String.join p.2)) :=
  (chunk_sections_amended "무역규범" chunkDemoB
      (by rw [chunkDemoB_length]; decide) (by decide)).1
    (by rw [pagesOf_chunkDemoB]; decide)

/-- Counterexample for C9 as stated: the no-marker demo section exceeds
the ceiling yet is not split at all, and the six-page demo section is
split into two chunks bearing the *same* label `무역규범` — no chunk
index is incorporated for a named subject. -/
theorem chunk_label_counterexample :
    MAX_SECTION_CHARS < chunkDemoA.length ∧
    chunkLargeSections [("무역규범", chunkDemoA)] = [("무역규범", chunkDemoA)] ∧
    MAX_SECTION_CHARS < chunkDemoB.length ∧
    (chunkLargeSections [("무역규범", chunkDemoB)]).map Prod.fst =
      ["무역규범", "무역규범"] := by
  have hlenA : MAX_SECTION_CHARS < chunkDemoA.length := by
    rw [chunkDemoA_length]; decide
  have hlenB : MAX_SECTION_CHARS < chunkDemoB.length := by
    rw [chunkDemoB_length]; decide
  refine ⟨hlenA, ?_, hlenB, ?_⟩
  · unfold chunkLargeSections
    rw [List.map_cons, List.map_nil]
    dsimp only
    rw [if_neg (by omega), if_pos (by rw [pagesOf_chunkDemoA]; decide)]
    rfl
  · unfold chunkLargeSections
    rw [List.map_cons, List.map_nil]
    dsimp only
    rw [if_neg (by omega), if_neg (by rw [pagesOf_chunkDemoB]; decide)]
    rw [pagesOf_chunkDemoB, chunksOf5_six]
    rfl

/-- Counterexample for C8 as stated: with non-empty bytes that the
library cannot open, `parse_pdf` succeeds with the empty list — it does
not fail with a document error. -/
theorem parse_pdf_open_failure_counterexample :
    parse_pdf (fun _ => Except.error "FileDataError") true (fun _ _ => [])
      [1] = Except.ok [] := rfl

/-- C8 (amended): whenever the non-empty input bytes cannot be opened as
a PDF (the modelled `fitz.open` raises), `parse_pdf` catches the failure
and returns the empty list instead of raising. -/
theorem parse_pdf_open_failure_returns_empty
    (fitzOpen : List Nat → Except String PdfDoc)
    (llmQuestions : String → String → List Question)
    (fileBytes : List Nat) (e : String)
    (hne : fileBytes ≠ []) (hopen : fitzOpen fileBytes = Except.error e) :
    parse_pdf fitzOpen true llmQuestions fileBytes = Except.ok [] := by
  unfold parse_pdf
  rw [if_neg hne, if_neg (by simp), hopen]

/-- Witness for the amended C8. -/
theorem parse_pdf_open_failure_returns_empty_witness :
    parse_pdf (fun _ => Except.error "cannot open broken document") true
      (fun _ _ => []) [37] = Except.ok [] :=
  parse_pdf_open_failure_returns_empty _ _ [37] "cannot open broken document"
    (by decide) rfl

/-- C4 (code bug): `parse_answer_pdf` is claimed never to raise, but its
body has no `except` clause around `fitz.open`, so on non-empty bytes the
library cannot open, the exception propagates to the caller instead of
yielding `[]`. -/
theorem parse_answer_pdf_raises_on_bad_open :
    parse_answer_pdf
        (fun _ => Except.error "FileDataError: cannot open broken document")
        true (fun _ _ => []) [37] =
      Except.error "FileDataError: cannot open broken document" := rfl
